import Mathlib

/-!
# KanMind backend — verification of the Kanban authorization / mutation layer

Shallow embedding of the KanMind Django backend (`kanban_app`): the data
model (`kanban_app/models.py`), the serializer validation layer
(`kanban_app/api/serializers.py`) and the API view functions
(`kanban_app/api/views.py`) are translated into pure Lean functions over an
explicit in-memory database state.  Framework-managed auto timestamps
(`created_at`, `updated_at`, `added_at`) are not modelled: no verified
property mentions them.  DRF `CharField` semantics (whitespace trimming and
the blank check) and field-`required` checks are modelled explicitly;
serializer errors are field-keyed lists of `(field, message)` pairs exactly
as DRF builds its error dictionary, while the ad-hoc
`Response({"detail": ...}, 400)` bodies produced inside the views are a
separate, non-field-keyed error constructor.
-/

deriving instance DecidableEq for Except

namespace KanMind

/-- A user row (`auth_app` user model: id, email, fullname). -/
structure User where
  id : Nat
  email : String
  fullname : String
deriving DecidableEq, Repr

/-- The `kanban_app.models.Board`: title, owner foreign key. -/
structure Board where
  id : Nat
  title : String
  ownerId : Nat
deriving DecidableEq, Repr

/-- The `kanban_app.models.BoardMember`: through table row for the `members`
many-to-many relation, unique per `(board, user)`. -/
structure BoardMember where
  boardId : Nat
  userId : Nat
deriving DecidableEq, Repr

/-- The `kanban_app.models.Task`: board FK, title, description, status and
priority (stored as their `TextChoices` string values), optional assignee
and reviewer FKs, optional due date (kept as an opaque string). -/
structure Task where
  id : Nat
  boardId : Nat
  title : String
  description : String
  status : String
  priority : String
  assigneeId : Option Nat
  reviewerId : Option Nat
  dueDate : Option String
deriving DecidableEq, Repr

/-- The `kanban_app.models.Comment`: task FK, author FK, content. -/
structure Comment where
  id : Nat
  taskId : Nat
  authorId : Nat
  content : String
deriving DecidableEq, Repr

/-- The relational store: one list per table. -/
structure DB where
  users : List User
  boards : List Board
  memberships : List BoardMember
  tasks : List Task
  comments : List Comment
deriving DecidableEq, Repr

/-- Python `str.strip()` (used directly in the views and by the DRF
`CharField` whitespace trimming): drop whitespace from both ends of the
string, modelled on the underlying character list. -/
def strTrim (s : String) : String :=
  String.mk
    (((s.data.dropWhile Char.isWhitespace).reverse.dropWhile
      Char.isWhitespace).reverse)

/-- The status choices of `Task.Status` / the serializer `ChoiceField`. -/
def validStatuses : List String := ["to-do", "in-progress", "review", "done"]

/-- The priority choices of `Task.Priority` / the serializer `ChoiceField`. -/
def validPriorities : List String := ["low", "medium", "high"]

/-- Database well-formedness: primary keys are unique, the
`(board, user)` membership pairs are unique (`unique_together`), all
foreign keys resolve, and stored task status/priority values are among the
model choices. -/
def DB.WF (db : DB) : Prop :=
  (db.users.map (·.id)).Nodup ∧
  (db.boards.map (·.id)).Nodup ∧
  (db.tasks.map (·.id)).Nodup ∧
  (db.comments.map (·.id)).Nodup ∧
  (db.memberships.map (fun m => (m.boardId, m.userId))).Nodup ∧
  (∀ m ∈ db.memberships, ∃ b ∈ db.boards, b.id = m.boardId) ∧
  (∀ m ∈ db.memberships, ∃ u ∈ db.users, u.id = m.userId) ∧
  (∀ b ∈ db.boards, ∃ u ∈ db.users, u.id = b.ownerId) ∧
  (∀ t ∈ db.tasks, ∃ b ∈ db.boards, b.id = t.boardId) ∧
  (∀ c ∈ db.comments, ∃ t ∈ db.tasks, t.id = c.taskId) ∧
  (∀ t ∈ db.tasks, t.status ∈ validStatuses ∧ t.priority ∈ validPriorities)

instance (db : DB) : Decidable db.WF := by
  unfold DB.WF; infer_instance

-- ---------- Query helpers mirroring the ORM lookups ----------

/-- The `User.objects.filter(id=i).exists()`. -/
def userExists (db : DB) (i : Nat) : Bool :=
  db.users.any (fun u => u.id == i)

/-- The `board.members.filter(id=userId).exists()`: is there an explicit
membership row for this board and user. -/
def isMemberRow (db : DB) (boardId userId : Nat) : Bool :=
  db.memberships.any (fun m => m.boardId == boardId && m.userId == userId)

/-- The `views.is_board_member_or_owner`: owner or explicit member. -/
def is_board_member_or_owner (db : DB) (b : Board) (userId : Nat) : Bool :=
  b.ownerId == userId || isMemberRow db b.id userId

/-- The `Board.objects.get(id=...)` as an `Option`. -/
def findBoard (db : DB) (boardId : Nat) : Option Board :=
  db.boards.find? (fun b => b.id == boardId)

/-- The `Task.objects.get(id=...)` as an `Option`. -/
def findTask (db : DB) (taskId : Nat) : Option Task :=
  db.tasks.find? (fun t => t.id == taskId)

/-- The `User.objects.get(id=...)` as an `Option`. -/
def findUser (db : DB) (userId : Nat) : Option User :=
  db.users.find? (fun u => u.id == userId)

/-- The `board.members.count()`: number of explicit membership rows. -/
def memberCount (db : DB) (boardId : Nat) : Nat :=
  (db.memberships.filter (fun m => m.boardId == boardId)).length

/-- The `task.comments.count()`. -/
def commentsCount (db : DB) (taskId : Nat) : Nat :=
  (db.comments.filter (fun c => c.taskId == taskId)).length

/-- Fresh autoincrement id: one more than the largest existing id. -/
def freshId (ids : List Nat) : Nat :=
  (ids.foldr max 0) + 1

-- ---------- Response and error shapes ----------

/-- The error outcomes the views produce.  `validation` is a DRF
serializer error (HTTP 400, body `{field: [messages]}`, one entry per
offending field in declaration order); `badRequest` is the view-level
`Response({"detail": msg}, 400)`; `forbidden` is
`{"detail": "Forbidden"}` with HTTP 403; `notFound` is
`get_object_or_404` raising HTTP 404. -/
inductive ApiErr where
  | notFound
  | forbidden
  | validation (errors : List (String × String))
  | badRequest (detail : String)
deriving DecidableEq, Repr

/-- HTTP status code of each error outcome. -/
def statusCode : ApiErr → Nat
  | .notFound => 404
  | .forbidden => 403
  | .validation _ => 400
  | .badRequest _ => 400

/-- The `UserMiniSerializer`: `{id, email, fullname}`. -/
structure UserMini where
  id : Nat
  email : String
  fullname : String
deriving DecidableEq, Repr

/-- Serialize a user with `UserMiniSerializer`. -/
def toMini (u : User) : UserMini :=
  { id := u.id, email := u.email, fullname := u.fullname }

/-- The `BoardListItemSerializer` / `BoardCreateResponseSerializer` shape. -/
structure BoardListItem where
  id : Nat
  title : String
  member_count : Nat
  ticket_count : Nat
  tasks_to_do_count : Nat
  tasks_high_prio_count : Nat
  owner_id : Nat
deriving DecidableEq, Repr

/-- The `TaskOnBoardSerializer` / `TaskDetailSerializer` shape (the board id is
included; for the on-board variant it is simply ignored by the caller). -/
structure TaskDetail where
  id : Nat
  board : Nat
  title : String
  description : String
  status : String
  priority : String
  assignee : Option UserMini
  reviewer : Option UserMini
  due_date : Option String
  comments_count : Nat
deriving DecidableEq, Repr

/-- The `BoardDetailSerializer` shape. -/
structure BoardDetailPayload where
  id : Nat
  title : String
  owner_id : Nat
  members : List UserMini
  tasks : List TaskDetail
deriving DecidableEq, Repr

/-- The `BoardUpdateResponseSerializer` shape. -/
structure BoardUpdateResponse where
  id : Nat
  title : String
  owner_data : Option UserMini
  members_data : List UserMini
deriving DecidableEq, Repr

/-- The `CommentSerializer` shape (auto timestamp omitted). -/
structure CommentOut where
  id : Nat
  author : String
  content : String
deriving DecidableEq, Repr

-- ---------- Small list utilities ----------

/-- Insert into an ascending list (used to model the Python `sorted` builtin). -/
def insertAsc (n : Nat) : List Nat → List Nat
  | [] => [n]
  | m :: ms => if n ≤ m then n :: m :: ms else m :: insertAsc n ms

/-- Ascending insertion sort, modelling the Python `sorted` builtin on a set of ids. -/
def sortAsc : List Nat → List Nat
  | [] => []
  | n :: ns => insertAsc n (sortAsc ns)

/-- Insert a user into a list ascending by id (models `order_by("id")`). -/
def insertById (u : User) : List User → List User
  | [] => [u]
  | v :: vs => if u.id ≤ v.id then u :: v :: vs else v :: insertById u vs

/-- Sort users ascending by id (models `order_by("id")`). -/
def sortById : List User → List User
  | [] => []
  | u :: us => insertById u (sortById us)

/-- Serialize a task with its computed `comments_count`
(`views.serialize_task_detail` / `serialize_task_for_board`). -/
def serializeTask (db : DB) (t : Task) : TaskDetail :=
  { id := t.id
    board := t.boardId
    title := t.title
    description := t.description
    status := t.status
    priority := t.priority
    assignee := (t.assigneeId.bind (findUser db)).map toMini
    reviewer := (t.reviewerId.bind (findUser db)).map toMini
    due_date := t.dueDate
    comments_count := commentsCount db t.id }

-- ---------- Board serializer validation ----------

/-- Inbound body of `POST /api/boards/`; `none` models an absent key. -/
structure BoardCreatePayload where
  title : Option String
  members : Option (List Nat)
deriving DecidableEq, Repr

/-- Inbound body of `PATCH /api/boards/<id>/` (partial update). -/
structure BoardUpdatePayload where
  title : Option String
  members : Option (List Nat)
deriving DecidableEq, Repr

/-- The `sorted(set(ids) - valid_ids)` in the two `validate_members` methods:
the ids with no matching user row, de-duplicated and sorted ascending. -/
def missingMemberIds (db : DB) (ids : List Nat) : List Nat :=
  sortAsc ((ids.filter (fun i => !userExists db i)).dedup)

/-- The combined error message listing every unknown id. -/
def unknownIdsMessage (missing : List Nat) : String :=
  "Unknown user IDs: " ++ String.intercalate ", " (missing.map toString)

/-- The `BoardCreateSerializer.validate_members` and
`BoardUpdateSerializer.validate_members` (identical bodies): every id must
resolve to a user; otherwise one combined error naming all missing ids.
On success Python returns `list(valid_ids)` — a set, i.e. the distinct
given ids. -/
def validate_members (db : DB) (ids : List Nat) : Except String (List Nat) :=
  let missing := missingMemberIds db ids
  if missing.isEmpty then .ok ids.dedup
  else .error (unknownIdsMessage missing)

/-- DRF `CharField()` (required, `trim_whitespace=True`,
`allow_blank=False`) validation for one field. -/
def charFieldErrors (field : String) (v : Option String) : List (String × String) :=
  match v with
  | none => [(field, "This field is required.")]
  | some s => if strTrim s == "" then [(field, "This field may not be blank.")] else []

/-- Field-keyed error dictionary built by `BoardCreateSerializer.is_valid`
(fields in declaration order: `title`, then `members`). -/
def boardCreateErrors (db : DB) (p : BoardCreatePayload) : List (String × String) :=
  charFieldErrors "title" p.title ++
  (match p.members with
   | none => [("members", "This field is required.")]
   | some ids =>
     match validate_members db ids with
     | .ok _ => []
     | .error msg => [("members", msg)])

/-- Field-keyed error dictionary built by `BoardUpdateSerializer.is_valid`
(both fields optional; validation applies only when present). -/
def boardUpdateErrors (db : DB) (p : BoardUpdatePayload) : List (String × String) :=
  (match p.title with
   | none => []
   | some s => if strTrim s == "" then [("title", "This field may not be blank.")] else []) ++
  (match p.members with
   | none => []
   | some ids =>
     match validate_members db ids with
     | .ok _ => []
     | .error msg => [("members", msg)])

-- ---------- Board views ----------

/-- The `tasks_qs.count()` for one board. -/
def ticketCount (db : DB) (bid : Nat) : Nat :=
  (db.tasks.filter (fun t => t.boardId == bid)).length

/-- The `tasks_qs.filter(status="to-do").count()`. -/
def todoCount (db : DB) (bid : Nat) : Nat :=
  (db.tasks.filter (fun t => t.boardId == bid && t.status == "to-do")).length

/-- The `tasks_qs.filter(priority="high").count()`. -/
def highPrioCount (db : DB) (bid : Nat) : Nat :=
  (db.tasks.filter (fun t => t.boardId == bid && t.priority == "high")).length

/-- The board summary dict built identically in `BoardsCollectionView.get`
and `BoardsCollectionView.post`. -/
def boardListItem (db : DB) (b : Board) : BoardListItem :=
  { id := b.id
    title := b.title
    member_count := memberCount db b.id
    ticket_count := ticketCount db b.id
    tasks_to_do_count := todoCount db b.id
    tasks_high_prio_count := highPrioCount db b.id
    owner_id := b.ownerId }

/-- The `BoardsCollectionView.get`: all boards where the user is owner or
member (`Q(owner_id=u) | Q(members__id=u)`, `.distinct()`), each with its
aggregated counters. -/
def boardsCollectionGet (db : DB) (userId : Nat) : List BoardListItem :=
  (db.boards.filter (fun b => is_board_member_or_owner db b userId)).map
    (boardListItem db)

/-- The `BoardsCollectionView.post`: validate with `BoardCreateSerializer`,
create the board owned by the requester with the trimmed title, attach the
users matching the validated member ids, and return the summary dict. -/
def boardsCollectionPost (db : DB) (userId : Nat) (p : BoardCreatePayload) :
    Except ApiErr (DB × BoardListItem) :=
  match p.title, p.members with
  | some title, some ids =>
    if strTrim title == "" then .error (.validation (boardCreateErrors db p))
    else
      match validate_members db ids with
      | .error _ => .error (.validation (boardCreateErrors db p))
      | .ok memberIds =>
        let bid := freshId (db.boards.map (·.id))
        let board : Board := { id := bid, title := strTrim title, ownerId := userId }
        let rows := (db.users.filter (fun v => memberIds.contains v.id)).map
          (fun v => ({ boardId := bid, userId := v.id } : BoardMember))
        let db' : DB := { db with
          boards := db.boards ++ [board]
          memberships := db.memberships ++ rows }
        .ok (db', boardListItem db' board)
  | _, _ => .error (.validation (boardCreateErrors db p))

/-- The `BoardDetailView.get`: 404 when the board id does not resolve, 403 when
the requester is neither owner nor member, otherwise the detail payload
with members ordered by id and all tasks of the board. -/
def boardDetailGet (db : DB) (userId boardId : Nat) :
    Except ApiErr BoardDetailPayload :=
  match findBoard db boardId with
  | none => .error .notFound
  | some b =>
    if !is_board_member_or_owner db b userId then .error .forbidden
    else
      .ok { id := b.id
            title := b.title
            owner_id := b.ownerId
            members := (sortById (db.users.filter
              (fun v => isMemberRow db b.id v.id))).map toMini
            tasks := (db.tasks.filter (fun t => t.boardId == b.id)).map
              (serializeTask db) }

/-- The `BoardDetailView.patch`: 404 on unknown id, 403 unless owner or member,
validate with `BoardUpdateSerializer` (partial), then update the title when
present and, when a members list is present, `board.members.set(users)` —
replace the explicit membership rows of this board with exactly the users
matching the validated ids. -/
def boardDetailPatch (db : DB) (userId boardId : Nat) (p : BoardUpdatePayload) :
    Except ApiErr (DB × BoardUpdateResponse) :=
  match findBoard db boardId with
  | none => .error .notFound
  | some b =>
    if !is_board_member_or_owner db b userId then .error .forbidden
    else
      let errs := boardUpdateErrors db p
      if !errs.isEmpty then .error (.validation errs)
      else
        let newTitle := match p.title with
          | some s => strTrim s
          | none => b.title
        let db1 : DB := { db with
          boards := db.boards.map
            (fun x => if x.id == b.id then { x with title := newTitle } else x) }
        let db2 : DB := match p.members with
          | none => db1
          | some ids =>
            let keep := db1.memberships.filter (fun m => m.boardId != b.id)
            let rows := (db1.users.filter (fun v => ids.contains v.id)).map
              (fun v => ({ boardId := b.id, userId := v.id } : BoardMember))
            { db1 with memberships := keep ++ rows }
        .ok (db2,
          { id := b.id
            title := newTitle
            owner_data := (findUser db2 b.ownerId).map toMini
            members_data := (db2.users.filter
              (fun v => isMemberRow db2 b.id v.id)).map toMini })

/-- The `BoardDetailView.delete`: 404 on unknown id, 403 unless owner, else
delete the board; tasks, memberships and the comments of those tasks cascade. -/
def boardDetailDelete (db : DB) (userId boardId : Nat) : Except ApiErr DB :=
  match findBoard db boardId with
  | none => .error .notFound
  | some b =>
    if b.ownerId != userId then .error .forbidden
    else
      let goneTaskIds := (db.tasks.filter (fun t => t.boardId == b.id)).map (·.id)
      .ok { db with
        boards := db.boards.filter (fun x => x.id != b.id)
        memberships := db.memberships.filter (fun m => m.boardId != b.id)
        tasks := db.tasks.filter (fun t => t.boardId != b.id)
        comments := db.comments.filter (fun c => !goneTaskIds.contains c.taskId) }

-- ---------- Task serializer validation ----------

/-- Inbound body of `POST /api/tasks/`.  `TaskCreateSerializer` declares
`board`, `title`, `description`, `status`, `priority`, `assignee_id`,
`reviewer_id`, `due_date`; the legacy keys `column`, `assignee` and
`reviewer` can appear in a request body but are NOT declared on the
serializer, so DRF silently ignores them.  Outer `none` models an absent
key; for the nullable id fields `some none` models an explicit `null`.
Malformed date strings are not modelled: no verified property sends one. -/
structure TaskCreatePayload where
  board : Option Nat
  title : Option String
  description : Option String
  status : Option String
  priority : Option String
  assignee_id : Option (Option Nat)
  reviewer_id : Option (Option Nat)
  due_date : Option (Option String)
  column : Option String
  assignee : Option Nat
  reviewer : Option Nat
deriving DecidableEq, Repr

/-- Inbound body of `PATCH /api/tasks/<id>/` (`TaskUpdateSerializer`,
all fields optional). -/
structure TaskUpdatePayload where
  title : Option String
  description : Option String
  status : Option String
  priority : Option String
  assignee_id : Option (Option Nat)
  reviewer_id : Option (Option Nat)
  due_date : Option (Option String)
deriving DecidableEq, Repr

/-- DRF `ChoiceField(choices=...)` (required) validation for one field. -/
def choiceFieldErrors (field : String) (choices : List String)
    (v : Option String) : List (String × String) :=
  match v with
  | none => [(field, "This field is required.")]
  | some s =>
    if choices.contains s then []
    else [(field, "\"" ++ s ++ "\" is not a valid choice.")]

/-- Field-keyed error dictionary built by `TaskCreateSerializer.is_valid`
(fields in declaration order; `description`, the id fields and `due_date`
accept any modelled value). -/
def taskCreateErrors (p : TaskCreatePayload) : List (String × String) :=
  (match p.board with
   | none => [("board", "This field is required.")]
   | some _ => []) ++
  charFieldErrors "title" p.title ++
  choiceFieldErrors "status" validStatuses p.status ++
  choiceFieldErrors "priority" validPriorities p.priority

/-- Field-keyed error dictionary built by `TaskUpdateSerializer.is_valid`
(every field optional; choice checks apply only when present). -/
def taskUpdateErrors (p : TaskUpdatePayload) : List (String × String) :=
  (match p.title with
   | none => []
   | some s => if strTrim s == "" then [("title", "This field may not be blank.")] else []) ++
  (match p.status with
   | none => []
   | some s => if validStatuses.contains s then []
               else [("status", "\"" ++ s ++ "\" is not a valid choice.")]) ++
  (match p.priority with
   | none => []
   | some s => if validPriorities.contains s then []
               else [("priority", "\"" ++ s ++ "\" is not a valid choice.")])

-- ---------- Task views ----------

/-- The `resolve_user` closure in `TasksCollectionView.post` and
`TaskDetailView.patch`: `None` stays unset; an unknown id is a 404
(`get_object_or_404(User, ...)`); a user outside the board
owner-or-member set raises the `ValueError` the view converts into a 400
`{"detail": "Assignee/Reviewer must be a board member."}` response. -/
def resolve_user (db : DB) (board : Board) (optId : Option Nat) :
    Except ApiErr (Option User) :=
  match optId with
  | none => .ok none
  | some i =>
    match findUser db i with
    | none => .error .notFound
    | some u =>
      if !is_board_member_or_owner db board u.id then
        .error (.badRequest "Assignee/Reviewer must be a board member.")
      else .ok (some u)

/-- The `TasksCollectionView.post`: validate with `TaskCreateSerializer`,
resolve the board (404 when unknown), require owner-or-member (403),
resolve assignee then reviewer, and create the task.  The `created_by`
kwarg is only set when the model has that field — it does not
(`taskHasCreatedBy` below), so the created row never records a creator. -/
def tasksCollectionPost (db : DB) (userId : Nat) (p : TaskCreatePayload) :
    Except ApiErr (DB × TaskDetail) :=
  let errs := taskCreateErrors p
  if !errs.isEmpty then .error (.validation errs)
  else
    match p.board, p.title, p.status, p.priority with
    | some bid, some title, some st, some pr =>
      match findBoard db bid with
      | none => .error .notFound
      | some board =>
        if !is_board_member_or_owner db board userId then .error .forbidden
        else
          match resolve_user db board p.assignee_id.join with
          | .error e => .error e
          | .ok assigneeUser =>
            match resolve_user db board p.reviewer_id.join with
            | .error e => .error e
            | .ok reviewerUser =>
              let tid := freshId (db.tasks.map (·.id))
              let t : Task :=
                { id := tid
                  boardId := board.id
                  title := strTrim title
                  description := strTrim (p.description.getD "")
                  status := st
                  priority := pr
                  assigneeId := assigneeUser.map (·.id)
                  reviewerId := reviewerUser.map (·.id)
                  dueDate := p.due_date.join }
              let db' : DB := { db with tasks := db.tasks ++ [t] }
              .ok (db', serializeTask db' t)
    | _, _, _, _ => .error (.validation errs)

/-- The `TaskDetailView.patch`: 404 on unknown task, 403 unless
owner-or-member of its board, validate partial fields, apply the present
ones, re-resolving assignee/reviewer through `resolve_user`. -/
def taskDetailPatch (db : DB) (userId taskId : Nat) (p : TaskUpdatePayload) :
    Except ApiErr (DB × TaskDetail) :=
  match findTask db taskId with
  | none => .error .notFound
  | some t =>
    match findBoard db t.boardId with
    | none => .error .notFound
    | some board =>
      if !is_board_member_or_owner db board userId then .error .forbidden
      else
        let errs := taskUpdateErrors p
        if !errs.isEmpty then .error (.validation errs)
        else
          let t1 : Task := { t with
            title := match p.title with
              | some s => strTrim s
              | none => t.title
            description := (p.description.map strTrim).getD t.description
            status := p.status.getD t.status
            priority := p.priority.getD t.priority
            dueDate := match p.due_date with
              | some d => d
              | none => t.dueDate }
          let resolvedAssignee : Except ApiErr (Option Nat) :=
            match p.assignee_id with
            | none => .ok t1.assigneeId
            | some v => (resolve_user db board v).map (·.map (·.id))
          match resolvedAssignee with
          | .error e => .error e
          | .ok aid =>
            let resolvedReviewer : Except ApiErr (Option Nat) :=
              match p.reviewer_id with
              | none => .ok t1.reviewerId
              | some v => (resolve_user db board v).map (·.map (·.id))
            match resolvedReviewer with
            | .error e => .error e
            | .ok rid =>
              let t2 : Task := { t1 with assigneeId := aid, reviewerId := rid }
              let db' : DB := { db with
                tasks := db.tasks.map (fun x => if x.id == t.id then t2 else x) }
              .ok (db', serializeTask db' t2)

/-- The `hasattr(Task, "created_by")` / `hasattr(task, "created_by")`: the
`Task` model in `kanban_app/models.py` declares no `created_by` field, so
the attribute never exists. -/
def taskHasCreatedBy : Bool := false

/-- The `task.created_by_id`: no such column exists on the `Task` model, so no
row carries a creator id. -/
def taskCreatedById (_ : Task) : Option Nat := none

/-- The `TaskDetailView.delete`: 404 on unknown task; allowed when the
requester owns the board of the task, or — only if the model had a
`created_by` field — when the requester created the task; otherwise 403.
On success the task and its comments are deleted. -/
def taskDetailDelete (db : DB) (userId taskId : Nat) : Except ApiErr DB :=
  match findTask db taskId with
  | none => .error .notFound
  | some t =>
    match findBoard db t.boardId with
    | none => .error .notFound
    | some board =>
      let allowed := board.ownerId == userId ||
        (taskHasCreatedBy && taskCreatedById t == some userId)
      if !allowed then .error .forbidden
      else
        .ok { db with
          tasks := db.tasks.filter (fun x => x.id != t.id)
          comments := db.comments.filter (fun c => c.taskId != t.id) }

-- ---------- Comment views ----------

/-- Inbound body of `POST /api/tasks/<id>/comments/`
(`CommentCreateSerializer`: one required `content` CharField). -/
structure CommentCreatePayload where
  content : Option String
deriving DecidableEq, Repr

/-- Insert a comment into a list ascending by id (models `order_by("id")`). -/
def insertCommentById (c : Comment) : List Comment → List Comment
  | [] => [c]
  | d :: ds => if c.id ≤ d.id then c :: d :: ds else d :: insertCommentById c ds

/-- Sort comments ascending by id (models `order_by("id")`). -/
def sortCommentsById : List Comment → List Comment
  | [] => []
  | c :: cs => insertCommentById c (sortCommentsById cs)

/-- Serialize a comment with `CommentSerializer` (author rendered as the
fullname of the author). -/
def serializeComment (db : DB) (c : Comment) : CommentOut :=
  { id := c.id
    author := ((findUser db c.authorId).map (·.fullname)).getD ""
    content := c.content }

/-- The `CommentsCollectionView.get`: 404 on unknown task, 403 unless
owner-or-member of its board, else the comments of the task ordered by id. -/
def commentsCollectionGet (db : DB) (userId taskId : Nat) :
    Except ApiErr (List CommentOut) :=
  match findTask db taskId with
  | none => .error .notFound
  | some t =>
    match findBoard db t.boardId with
    | none => .error .notFound
    | some board =>
      if !is_board_member_or_owner db board userId then .error .forbidden
      else
        .ok ((sortCommentsById (db.comments.filter
          (fun c => c.taskId == t.id))).map (serializeComment db))

/-- The `CommentsCollectionView.post`: 404 on unknown task, 403 unless
owner-or-member, validate the content, create the comment authored by the
requester. -/
def commentsCollectionPost (db : DB) (userId taskId : Nat)
    (p : CommentCreatePayload) : Except ApiErr (DB × CommentOut) :=
  match findTask db taskId with
  | none => .error .notFound
  | some t =>
    match findBoard db t.boardId with
    | none => .error .notFound
    | some board =>
      if !is_board_member_or_owner db board userId then .error .forbidden
      else
        let errs := charFieldErrors "content" p.content
        if !errs.isEmpty then .error (.validation errs)
        else
          let cid := freshId (db.comments.map (·.id))
          let c : Comment :=
            { id := cid
              taskId := t.id
              authorId := userId
              content := strTrim (p.content.getD "") }
          .ok ({ db with comments := db.comments ++ [c] }, serializeComment db c)

/-- The `CommentDeleteView.delete`: 404 on unknown task, 403 unless the
requester can view the board, 404 when the comment does not belong to the
task, 403 unless the requester authored the comment, else delete it. -/
def commentDeleteView (db : DB) (userId taskId commentId : Nat) :
    Except ApiErr DB :=
  match findTask db taskId with
  | none => .error .notFound
  | some t =>
    match findBoard db t.boardId with
    | none => .error .notFound
    | some board =>
      if !is_board_member_or_owner db board userId then .error .forbidden
      else
        match db.comments.find? (fun c => c.id == commentId && c.taskId == t.id) with
        | none => .error .notFound
        | some c =>
          if c.authorId != userId then .error .forbidden
          else .ok { db with comments := db.comments.filter (fun x => x.id != c.id) }

-- ---------- Dashboard (spec-modelled) ----------

/-- Modelled from the spec: the dashboard endpoint
(`GET /api/kanban/dashboard/`) is exercised by the repository tests
(`test_comments_and_dashboard.py`) but its view function and URL route are
absent from the source tree.  Per spec §4.2 the summary is computed over
the set of tasks whose board the actor owns or is a member of,
de-duplicated at the board-id level with a set union.  This is that
de-duplicated union of board ids. -/
def accessibleBoardIds (db : DB) (userId : Nat) : List Nat :=
  (((db.boards.filter (fun b => b.ownerId == userId)).map (·.id)) ++
    ((db.memberships.filter (fun m => m.userId == userId)).map (·.boardId))).dedup

/-- Modelled from the spec: the de-duplicated task set underlying the
dashboard summary — every task on an accessible board, each task once. -/
def dashboardTasks (db : DB) (userId : Nat) : List Task :=
  db.tasks.filter (fun t => (accessibleBoardIds db userId).contains t.boardId)

/-- The dashboard response shape of spec §6:
`{tickets_total, by_priority: {low, medium, high}, by_status: {to-do,
in-progress, review, done}}`. -/
structure DashboardStats where
  tickets_total : Nat
  prio_low : Nat
  prio_medium : Nat
  prio_high : Nat
  status_todo : Nat
  status_in_progress : Nat
  status_review : Nat
  status_done : Nat
deriving DecidableEq, Repr

/-- Modelled from the spec: `dashboardSummary(actor)` of spec §4.2 —
`tickets_total` is the size of the de-duplicated task set, and the
`by_priority` / `by_status` maps count the same task set. -/
def dashboardSummary (db : DB) (userId : Nat) : DashboardStats :=
  let ts := dashboardTasks db userId
  { tickets_total := ts.length
    prio_low := (ts.filter (fun t => t.priority == "low")).length
    prio_medium := (ts.filter (fun t => t.priority == "medium")).length
    prio_high := (ts.filter (fun t => t.priority == "high")).length
    status_todo := (ts.filter (fun t => t.status == "to-do")).length
    status_in_progress := (ts.filter (fun t => t.status == "in-progress")).length
    status_review := (ts.filter (fun t => t.status == "review")).length
    status_done := (ts.filter (fun t => t.status == "done")).length }

/-- The task set of spec §4.2 / §8, stated directly on board rows: the ids
of all tasks whose board the user owns or is an explicit member of.  Used
to compare the de-duplicating union computation against the spec wording. -/
def specDashboardTaskIds (db : DB) (userId : Nat) : Finset Nat :=
  ((db.tasks.filter (fun t => db.boards.any (fun b => b.id == t.boardId &&
    (b.ownerId == userId || isMemberRow db b.id userId)))).map (·.id)).toFinset

-- ---------- Concrete fixture ----------

/-- Concrete fixture: Alice (1) owns board 1 whose only explicit member is
Bob (2); Carol (3) and Dave (5) have no relation to the board.  Task 1
lives on board 1; comment 1 on task 1 was written by Bob. -/
def dbK : DB :=
  { users := [⟨1, "alice@mail.example", "Alice"⟩, ⟨2, "bob@mail.example", "Bob"⟩,
              ⟨3, "carol@mail.example", "Carol"⟩, ⟨5, "dave@mail.example", "Dave"⟩]
    boards := [⟨1, "B1", 1⟩]
    memberships := [⟨1, 2⟩]
    tasks := [⟨1, 1, "T1", "", "to-do", "high", none, none, none⟩]
    comments := [⟨1, 1, 2, "hi"⟩] }

-- ---------- Supporting lemmas ----------

lemma insertAsc_mem {a n : Nat} {l : List Nat} :
    a ∈ insertAsc n l ↔ a = n ∨ a ∈ l := by
  induction l with
  | nil => simp [insertAsc]
  | cons m ms ih =>
    by_cases h : n ≤ m
    · simp [insertAsc, if_pos h]
    · simp only [insertAsc, if_neg h, List.mem_cons, ih]
      tauto

lemma sortAsc_mem {a : Nat} {l : List Nat} : a ∈ sortAsc l ↔ a ∈ l := by
  induction l with
  | nil => simp [sortAsc]
  | cons n ns ih => simp [sortAsc, insertAsc_mem, ih]

lemma insertAsc_sorted {n : Nat} {l : List Nat} (h : l.Sorted (· ≤ ·)) :
    (insertAsc n l).Sorted (· ≤ ·) := by
  induction l with
  | nil => simp [insertAsc]
  | cons m ms ih =>
    rw [List.sorted_cons] at h
    by_cases hnm : n ≤ m
    · rw [insertAsc, if_pos hnm, List.sorted_cons]
      refine ⟨?_, List.sorted_cons.mpr h⟩
      intro b hb
      rcases List.mem_cons.mp hb with rfl | hb
      · exact hnm
      · exact le_trans hnm (h.1 b hb)
    · rw [insertAsc, if_neg hnm, List.sorted_cons]
      refine ⟨?_, ih h.2⟩
      intro b hb
      rcases insertAsc_mem.mp hb with rfl | hb
      · exact le_of_not_le hnm
      · exact h.1 b hb

lemma sortAsc_sorted (l : List Nat) : (sortAsc l).Sorted (· ≤ ·) := by
  induction l with
  | nil => simp [sortAsc]
  | cons n ns ih => exact insertAsc_sorted ih

lemma insertAsc_ne_nil {n : Nat} {l : List Nat} : insertAsc n l ≠ [] := by
  cases l with
  | nil => simp [insertAsc]
  | cons m ms =>
    rw [insertAsc]
    split <;> simp

lemma sortAsc_eq_nil_iff {l : List Nat} : sortAsc l = [] ↔ l = [] := by
  cases l with
  | nil => simp [sortAsc]
  | cons n ns => simp [sortAsc, insertAsc_ne_nil]

lemma le_foldr_max {a : Nat} : ∀ {l : List Nat}, a ∈ l → a ≤ l.foldr max 0
  | [], h => absurd h (List.not_mem_nil a)
  | b :: bs, h => by
    rcases List.mem_cons.mp h with rfl | h
    · exact le_max_left _ _
    · exact le_trans (le_foldr_max h) (le_max_right _ _)

lemma lt_freshId {a : Nat} {l : List Nat} (h : a ∈ l) : a < freshId l :=
  Nat.lt_succ_of_le (le_foldr_max h)

/-- The `userExists` characterization. -/
lemma userExists_iff {db : DB} {i : Nat} :
    userExists db i = true ↔ ∃ u ∈ db.users, u.id = i := by
  simp [userExists, List.any_eq_true]

lemma findUser_id {db : DB} {i : Nat} {u : User}
    (h : findUser db i = some u) : u.id = i := by
  have := List.find?_some h
  simpa using this

lemma findBoard_id {db : DB} {i : Nat} {b : Board}
    (h : findBoard db i = some b) : b.id = i := by
  have := List.find?_some h
  simpa using this

lemma findBoard_mem {db : DB} {i : Nat} {b : Board}
    (h : findBoard db i = some b) : b ∈ db.boards :=
  List.mem_of_find?_eq_some h

lemma findTask_mem {db : DB} {i : Nat} {t : Task}
    (h : findTask db i = some t) : t ∈ db.tasks :=
  List.mem_of_find?_eq_some h

/-- Counting users whose id lies in a duplicate-free id list: when every
listed id resolves and user ids are unique, the count is the length of the
id list. -/
lemma length_filter_idIn {users : List User} {S : List Nat}
    (husers : (users.map (·.id)).Nodup) (hS : S.Nodup)
    (hall : ∀ i ∈ S, ∃ u ∈ users, u.id = i) :
    (users.filter (fun v => S.contains v.id)).length = S.length := by
  have hsub : ((users.filter (fun v => S.contains v.id)).map (·.id)).Nodup := by
    refine List.Nodup.sublist ?_ husers
    exact List.Sublist.map _ (List.filter_sublist _)
  have hset : ((users.filter (fun v => S.contains v.id)).map (·.id)).toFinset
      = S.toFinset := by
    ext i
    simp only [List.mem_toFinset, List.mem_map, List.mem_filter]
    constructor
    · rintro ⟨u, ⟨_, hmem⟩, rfl⟩
      simpa using hmem
    · intro hiS
      obtain ⟨u, hu, rfl⟩ := hall i hiS
      exact ⟨u, ⟨hu, by simpa using hiS⟩, rfl⟩
  calc (users.filter (fun v => S.contains v.id)).length
      = ((users.filter (fun v => S.contains v.id)).map (·.id)).length :=
        (List.length_map _ _).symm
    _ = ((users.filter (fun v => S.contains v.id)).map (·.id)).toFinset.card :=
        (List.toFinset_card_of_nodup hsub).symm
    _ = S.toFinset.card := by rw [hset]
    _ = S.length := List.toFinset_card_of_nodup hS

/-- Three-way partition count for the priority choices. -/
lemma length_filter_three {l : List Task} {f : Task → String} {a b c : String}
    (hab : a ≠ b) (hac : a ≠ c) (hbc : b ≠ c)
    (h : ∀ t ∈ l, f t = a ∨ f t = b ∨ f t = c) :
    (l.filter (fun t => f t == a)).length + (l.filter (fun t => f t == b)).length +
      (l.filter (fun t => f t == c)).length = l.length := by
  induction l with
  | nil => simp
  | cons t ts ih =>
    have hts : ∀ x ∈ ts, f x = a ∨ f x = b ∨ f x = c :=
      fun x hx => h x (List.mem_cons_of_mem _ hx)
    have ih2 := ih hts
    rcases h t (List.mem_cons_self _ _) with hf | hf | hf <;>
      simp [List.filter_cons, hf, hab, hac, hbc,
        Ne.symm hab, Ne.symm hac, Ne.symm hbc] <;>
      omega

/-- Four-way partition count for the status choices. -/
lemma length_filter_four {l : List Task} {f : Task → String} {a b c d : String}
    (hab : a ≠ b) (hac : a ≠ c) (had : a ≠ d) (hbc : b ≠ c) (hbd : b ≠ d)
    (hcd : c ≠ d)
    (h : ∀ t ∈ l, f t = a ∨ f t = b ∨ f t = c ∨ f t = d) :
    (l.filter (fun t => f t == a)).length + (l.filter (fun t => f t == b)).length +
      (l.filter (fun t => f t == c)).length + (l.filter (fun t => f t == d)).length
      = l.length := by
  induction l with
  | nil => simp
  | cons t ts ih =>
    have hts : ∀ x ∈ ts, f x = a ∨ f x = b ∨ f x = c ∨ f x = d :=
      fun x hx => h x (List.mem_cons_of_mem _ hx)
    have ih2 := ih hts
    rcases h t (List.mem_cons_self _ _) with hf | hf | hf | hf <;>
      simp [List.filter_cons, hf, hab, hac, had, hbc, hbd, hcd,
        Ne.symm hab, Ne.symm hac, Ne.symm had, Ne.symm hbc, Ne.symm hbd,
        Ne.symm hcd] <;>
      omega

/-- Successful member validation: the returned list is the de-duplicated
input and every given id resolves to a user. -/
lemma validate_members_ok {db : DB} {ids memberIds : List Nat}
    (h : validate_members db ids = .ok memberIds) :
    memberIds = ids.dedup ∧ ∀ i ∈ ids, userExists db i = true := by
  simp only [validate_members] at h
  by_cases hm : (missingMemberIds db ids).isEmpty = true
  · rw [if_pos hm] at h
    refine ⟨(Except.ok.inj h).symm, ?_⟩
    intro i hi
    by_contra hex
    have hmem : i ∈ missingMemberIds db ids := by
      unfold missingMemberIds
      rw [sortAsc_mem, List.mem_dedup, List.mem_filter]
      exact ⟨hi, by simp [Bool.eq_false_iff.mpr hex]⟩
    rw [List.isEmpty_iff] at hm
    rw [hm] at hmem
    cases hmem
  · rw [if_neg hm] at h
    cases h

/-- Failed member validation: the message is the combined
unknown-ids message and at least one id is missing. -/
lemma validate_members_error {db : DB} {ids : List Nat} {msg : String}
    (h : validate_members db ids = .error msg) :
    msg = unknownIdsMessage (missingMemberIds db ids) ∧
      missingMemberIds db ids ≠ [] := by
  simp only [validate_members] at h
  by_cases hm : (missingMemberIds db ids).isEmpty = true
  · rw [if_pos hm] at h
    cases h
  · rw [if_neg hm] at h
    refine ⟨(Except.error.inj h).symm, ?_⟩
    intro hnil
    exact hm (by rw [hnil]; rfl)

/-- Membership in the missing-id list is exactly being a listed id with no
user row. -/
lemma missingMemberIds_mem {db : DB} {ids : List Nat} {j : Nat} :
    j ∈ missingMemberIds db ids ↔ j ∈ ids ∧ userExists db j = false := by
  unfold missingMemberIds
  rw [sortAsc_mem, List.mem_dedup, List.mem_filter]
  simp

/-- Board-id membership in the de-duplicated accessible union is exactly
ownership or explicit membership of an existing board row. -/
lemma accessibleBoardIds_mem {db : DB} {u bid : Nat}
    (hmB : ∀ m ∈ db.memberships, ∃ b ∈ db.boards, b.id = m.boardId) :
    bid ∈ accessibleBoardIds db u ↔
      ∃ b ∈ db.boards, b.id = bid ∧
        (b.ownerId = u ∨ isMemberRow db b.id u = true) := by
  unfold accessibleBoardIds
  rw [List.mem_dedup, List.mem_append]
  simp only [List.mem_map, List.mem_filter, beq_iff_eq]
  constructor
  · rintro (⟨b, ⟨hbmem, hbown⟩, rfl⟩ | ⟨m, ⟨hmmem, hmu⟩, rfl⟩)
    · exact ⟨b, hbmem, rfl, Or.inl hbown⟩
    · obtain ⟨b0, hb0, hb0id⟩ := hmB m hmmem
      refine ⟨b0, hb0, hb0id, Or.inr ?_⟩
      rw [isMemberRow, List.any_eq_true]
      exact ⟨m, hmmem, by simp [hb0id, hmu]⟩
  · rintro ⟨b, hbmem, rfl, hown | hmem⟩
    · exact Or.inl ⟨b, ⟨hbmem, hown⟩, rfl⟩
    · right
      rw [isMemberRow, List.any_eq_true] at hmem
      obtain ⟨m, hmmem, hmp⟩ := hmem
      simp only [Bool.and_eq_true, beq_iff_eq] at hmp
      exact ⟨m, ⟨hmmem, hmp.2⟩, hmp.1⟩

/-- The de-duplicating board-id union selects exactly the tasks whose
board row the user owns or is a member of. -/
lemma dashboardTasks_filter_eq {db : DB} {u : Nat}
    (hmB : ∀ m ∈ db.memberships, ∃ b ∈ db.boards, b.id = m.boardId) :
    dashboardTasks db u = db.tasks.filter (fun t =>
      db.boards.any (fun b => b.id == t.boardId &&
        (b.ownerId == u || isMemberRow db b.id u))) := by
  unfold dashboardTasks
  apply List.filter_congr
  intro t ht
  rw [Bool.eq_iff_iff]
  constructor
  · intro hL
    have hmem : t.boardId ∈ accessibleBoardIds db u := by simpa using hL
    obtain ⟨b, hbmem, hbid, hcase⟩ := (accessibleBoardIds_mem hmB).mp hmem
    rw [List.any_eq_true]
    refine ⟨b, hbmem, ?_⟩
    simp only [Bool.and_eq_true, Bool.or_eq_true, beq_iff_eq]
    exact ⟨hbid, hcase⟩
  · intro hR
    rw [List.any_eq_true] at hR
    obtain ⟨b, hbmem, hbp⟩ := hR
    simp only [Bool.and_eq_true, Bool.or_eq_true, beq_iff_eq] at hbp
    have hmem : t.boardId ∈ accessibleBoardIds db u :=
      (accessibleBoardIds_mem hmB).mpr ⟨b, hbmem, hbp.1, hbp.2⟩
    simpa using hmem

/-- Priority partition of a task list whose priorities are valid. -/
lemma priority_partition {l : List Task}
    (h : ∀ t ∈ l, t.priority ∈ validPriorities) :
    (l.filter (fun t => t.priority == "low")).length +
      (l.filter (fun t => t.priority == "medium")).length +
      (l.filter (fun t => t.priority == "high")).length = l.length :=
  length_filter_three (f := fun t => t.priority) (by decide) (by decide)
    (by decide) (fun t ht => by simpa [validPriorities] using h t ht)

/-- Status partition of a task list whose statuses are valid. -/
lemma status_partition {l : List Task}
    (h : ∀ t ∈ l, t.status ∈ validStatuses) :
    (l.filter (fun t => t.status == "to-do")).length +
      (l.filter (fun t => t.status == "in-progress")).length +
      (l.filter (fun t => t.status == "review")).length +
      (l.filter (fun t => t.status == "done")).length = l.length :=
  length_filter_four (f := fun t => t.status) (by decide) (by decide)
    (by decide) (by decide) (by decide) (by decide)
    (fun t ht => by simpa [validStatuses] using h t ht)

-- ---------- Claim theorems ----------

/-- C1: the claim states that an authenticated actor who is neither owner
nor explicit member of a board receives NotFound (404), never Forbidden
(403), from every operation addressing the board or its descendants.  The
code does the opposite: for the stranger Carol (id 3) addressing board 1
(owner Alice, member Bob), every such operation — board detail GET, board
PATCH, board DELETE, task create/patch/delete, comment list/create/delete
— returns the Forbidden (403) outcome produced by `forbid_403`, which is
distinct from the NotFound (404) outcome. -/
theorem C1_stranger_gets_forbidden_not_notfound :
    boardDetailGet dbK 3 1 = .error .forbidden ∧
    boardDetailPatch dbK 3 1 ⟨some "New", none⟩ = .error .forbidden ∧
    boardDetailDelete dbK 3 1 = .error .forbidden ∧
    tasksCollectionPost dbK 3
      ⟨some 1, some "T", none, some "to-do", some "low", none, none, none,
        none, none, none⟩ = .error .forbidden ∧
    taskDetailPatch dbK 3 1 ⟨none, none, none, none, none, none, none⟩ =
      .error .forbidden ∧
    taskDetailDelete dbK 3 1 = .error .forbidden ∧
    commentsCollectionGet dbK 3 1 = .error .forbidden ∧
    commentsCollectionPost dbK 3 1 ⟨some "yo"⟩ = .error .forbidden ∧
    commentDeleteView dbK 3 1 1 = .error .forbidden ∧
    statusCode .forbidden = 403 ∧ statusCode .notFound = 404 ∧
    ApiErr.forbidden ≠ ApiErr.notFound := by
  decide

/-- C7: the claim states that legacy task-create payload keys (`column`,
bare `assignee`/`reviewer`) are normalized into `status` /
`assignee_id` / `reviewer_id` before validation.  The code declares no such
aliases on `TaskCreateSerializer`: a payload carrying
`column = "doing"` and `assignee = 5` but no `status` is rejected with a
required-field validation error on `status`, and when a `status` is also
supplied the legacy keys are silently ignored — the created task keeps the
explicit status and gets no assignee. -/
theorem C7_legacy_keys_ignored_not_normalized :
    tasksCollectionPost dbK 1
      ⟨some 1, some "T", none, none, some "low", none, none, none,
        some "doing", some 5, none⟩ =
      .error (.validation [("status", "This field is required.")]) ∧
    ((tasksCollectionPost dbK 1
      ⟨some 1, some "T", none, some "to-do", some "low", none, none, none,
        some "doing", some 5, none⟩).toOption.map
        (fun r => (r.2.status, r.2.assignee))) = some ("to-do", none) := by
  decide

/-- C2 counterexample: the claim states that `member_count` counts the
owner together with the explicit members, so a board created with an empty
members list would report `member_count = 1`.  On the code, Alice creating
a board with `members = []` gets `member_count = 0`: the owner is not
implicitly counted. -/
theorem C2_counterexample :
    ((boardsCollectionPost dbK 1 ⟨some "Hello", some []⟩).toOption.map
      (fun r => r.2.member_count)) = some 0 := by
  decide

/-- C2 (amended): `member_count` in the board create response counts only
the explicit membership rows — the given member ids de-duplicated by user
id; the owner is not implicitly counted, so a board created with an empty
members list reports `member_count = 0`.  The response field agrees with
the stored membership rows of the new board. -/
theorem C2_member_count_explicit_members_only
    (db : DB) (u : Nat) (title : String) (ids : List Nat) (db' : DB)
    (item : BoardListItem) (hwf : db.WF)
    (h : boardsCollectionPost db u ⟨some title, some ids⟩ = .ok (db', item)) :
    item.member_count = ids.dedup.length ∧
    item.member_count = memberCount db' item.id ∧
    (ids = [] → item.member_count = 0) := by
  obtain ⟨husers, -, -, -, -, hmB, -, -, -, -, -⟩ := hwf
  simp only [boardsCollectionPost] at h
  by_cases hb : strTrim title = ""
  · rw [if_pos (by simp [hb])] at h
    cases h
  · rw [if_neg (by simp [hb])] at h
    rcases hvm : validate_members db ids with msg | memberIds
    · rw [hvm] at h
      cases h
    · rw [hvm] at h
      obtain ⟨hmids, hall⟩ := validate_members_ok hvm
      subst hmids
      cases h
      have hold : db.memberships.filter
          (fun m => m.boardId == freshId (db.boards.map (·.id))) = [] := by
        rw [List.filter_eq_nil_iff]
        intro m hm
        obtain ⟨b0, hb0, hb0id⟩ := hmB m hm
        have hlt : m.boardId < freshId (db.boards.map (·.id)) := by
          apply lt_freshId
          rw [← hb0id]
          exact List.mem_map_of_mem _ hb0
        simp [Nat.ne_of_lt hlt]
      have hmain :
          memberCount
            { db with
              boards := db.boards ++
                [{ id := freshId (db.boards.map (·.id)), title := strTrim title,
                   ownerId := u }]
              memberships := db.memberships ++
                ((db.users.filter (fun v => (ids.dedup).contains v.id)).map
                  (fun v => ({ boardId := freshId (db.boards.map (·.id)),
                               userId := v.id } : BoardMember))) }
            (freshId (db.boards.map (·.id))) = ids.dedup.length := by
        unfold memberCount
        simp only [List.filter_append, hold, List.nil_append]
        rw [List.filter_eq_self.mpr]
        · rw [List.length_map]
          exact length_filter_idIn husers (List.nodup_dedup _)
            (fun i hi => userExists_iff.mp (hall i (List.mem_dedup.mp hi)))
        · intro m hm
          obtain ⟨v, -, rfl⟩ := List.mem_map.mp hm
          simp
      refine ⟨hmain, rfl, fun hnil => ?_⟩
      rw [show (boardListItem _ _).member_count = memberCount _ _ from rfl, hmain,
        hnil]
      rfl

/-- C2 witness: Alice creates a board with duplicate member ids `[2, 5, 2]`
on the concrete store — `member_count` is 2, the number of distinct
explicit members. -/
theorem C2_member_count_explicit_members_only_witness :
    boardsCollectionPost dbK 1 ⟨some "Hello", some [2, 5, 2]⟩ =
      .ok ({ dbK with
              boards := dbK.boards ++ [⟨2, "Hello", 1⟩]
              memberships := dbK.memberships ++ [⟨2, 2⟩, ⟨2, 5⟩] },
           ⟨2, "Hello", 2, 0, 0, 0, 1⟩) ∧
    (⟨2, "Hello", 2, 0, 0, 0, 1⟩ : BoardListItem).member_count =
      [2, 5, 2].dedup.length := by
  refine ⟨by decide, ?_⟩
  exact (C2_member_count_explicit_members_only dbK 1 "Hello" [2, 5, 2]
    { dbK with
        boards := dbK.boards ++ [⟨2, "Hello", 1⟩]
        memberships := dbK.memberships ++ [⟨2, 2⟩, ⟨2, 5⟩] }
    ⟨2, "Hello", 2, 0, 0, 0, 1⟩ (by decide) (by decide)).1

/-- C3 counterexample: the claim states that a members-replace PATCH
results in the given id set unioned with the owner id.  On the code, the
owner Alice (id 1) replacing the members of board 1 with `[3]` leaves the
explicit membership set at exactly `{3}` — the owner is not re-added. -/
theorem C3_counterexample :
    ((boardDetailPatch dbK 1 1 ⟨none, some [3]⟩).toOption.map
      (fun r => (r.1.memberships.filter (fun m => m.boardId == 1)).map
        (·.userId))) = some [3] ∧
    ((boardDetailPatch dbK 1 1 ⟨none, some [3]⟩).toOption.map
      (fun r => isMemberRow r.1 1 1)) = some false := by
  decide

/-- C3 (amended): a members-replace PATCH sets the explicit membership set
of the board to exactly the given id set — the owner id is NOT unioned in.
The owner nevertheless keeps access to the board, because the permission
check accepts the board owner independently of membership rows. -/
theorem C3_replace_is_exact_id_set
    (db : DB) (u boardId : Nat) (tOpt : Option String) (ids : List Nat)
    (db' : DB) (resp : BoardUpdateResponse)
    (h : boardDetailPatch db u boardId ⟨tOpt, some ids⟩ = .ok (db', resp)) :
    (∀ v, isMemberRow db' boardId v = true ↔ v ∈ ids) ∧
    (∀ b', findBoard db' boardId = some b' →
      is_board_member_or_owner db' b' b'.ownerId = true) := by
  refine ⟨?_, fun b' _ => by simp [is_board_member_or_owner]⟩
  intro v
  simp only [boardDetailPatch] at h
  rcases hfb : findBoard db boardId with - | b
  · rw [hfb] at h
    cases h
  rw [hfb] at h
  dsimp only at h
  have hbid : b.id = boardId := findBoard_id hfb
  by_cases hm : is_board_member_or_owner db b u = true
  · rw [if_neg (by simp [hm])] at h
    by_cases herr : (boardUpdateErrors db ⟨tOpt, some ids⟩).isEmpty = true
    · rw [if_neg (by simp [List.isEmpty_iff.mp herr])] at h
      have hall : ∀ i ∈ ids, userExists db i = true := by
        rcases hvm : validate_members db ids with msg | mids
        · exfalso
          rw [List.isEmpty_iff] at herr
          simp only [boardUpdateErrors, hvm] at herr
          rcases tOpt with - | s
          · cases herr
          · by_cases hbl : strTrim s = "" <;> simp [hbl] at herr
        · exact (validate_members_ok hvm).2
      cases h
      constructor
      · intro hmr
        rw [isMemberRow, List.any_append, Bool.or_eq_true] at hmr
        rcases hmr with hkeep | hrows
        · exfalso
          obtain ⟨m, hm1, hm2⟩ := List.any_eq_true.mp hkeep
          obtain ⟨-, hmne⟩ := List.mem_filter.mp hm1
          simp only [Bool.and_eq_true, beq_iff_eq] at hm2
          rw [hm2.1, ← hbid] at hmne
          simp at hmne
        · obtain ⟨row, hrow, hp⟩ := List.any_eq_true.mp hrows
          obtain ⟨w, hw, rfl⟩ := List.mem_map.mp hrow
          obtain ⟨-, hwcon⟩ := List.mem_filter.mp hw
          simp only [Bool.and_eq_true, beq_iff_eq] at hp
          rw [← hp.2]
          simpa using hwcon
      · intro hv
        rw [isMemberRow, List.any_append, Bool.or_eq_true]
        right
        rw [List.any_eq_true]
        obtain ⟨w, hwmem, hwid⟩ := userExists_iff.mp (hall v hv)
        refine ⟨⟨b.id, w.id⟩,
          List.mem_map_of_mem _ (List.mem_filter.mpr ⟨hwmem, ?_⟩), ?_⟩
        · rw [hwid]
          simpa using hv
        · simp [hbid, hwid]
    · rw [if_pos (by simp [Bool.eq_false_iff.mpr herr])] at h
      cases h
  · rw [if_pos (by simp [hm])] at h
    cases h

/-- C3 witness: on the concrete store, the owner Alice replaces the
members of board 1 with `[3]`; afterwards Carol (3) is an explicit member,
Alice (1) is not, and Alice still passes the access check as owner. -/
theorem C3_replace_is_exact_id_set_witness :
    isMemberRow { dbK with memberships := [⟨1, 3⟩] } 1 3 = true ∧
    isMemberRow { dbK with memberships := [⟨1, 3⟩] } 1 1 = false ∧
    is_board_member_or_owner { dbK with memberships := [⟨1, 3⟩] } ⟨1, "B1", 1⟩ 1
      = true := by
  have h := C3_replace_is_exact_id_set dbK 1 1 none [3]
    { dbK with memberships := [⟨1, 3⟩] }
    ⟨1, "B1", some ⟨1, "alice@mail.example", "Alice"⟩,
      [⟨3, "carol@mail.example", "Carol"⟩]⟩ (by decide)
  refine ⟨(h.1 3).mpr (by decide), ?_, h.2 ⟨1, "B1", 1⟩ (by decide)⟩
  cases hmr : isMemberRow { dbK with memberships := [⟨1, 3⟩] } 1 1 with
  | false => rfl
  | true => exact absurd ((h.1 1).mp hmr) (by decide)

/-- C4 counterexample: the claim states that a trimmed title of length 2
fails validation.  On the code, creating a board titled `"Hi"` succeeds —
no length bound is enforced. -/
theorem C4_counterexample :
    ((boardsCollectionPost dbK 1 ⟨some "Hi", some []⟩).toOption.map
      (fun r => r.2.title)) = some "Hi" := by
  decide

/-- C4 (amended): board creation trims the title and rejects it exactly
when it is blank after trimming — the rejection is a ValidationError
naming the `title` field, and any nonblank trimmed title of any length is
accepted and stored trimmed. -/
theorem C4_title_blank_check_only (db : DB) (u : Nat) (title : String) :
    ((boardsCollectionPost db u ⟨some title, some []⟩).toOption.isSome = true ↔
      strTrim title ≠ "") ∧
    (strTrim title = "" →
      boardsCollectionPost db u ⟨some title, some []⟩ =
        .error (.validation [("title", "This field may not be blank.")])) ∧
    (∀ db' item,
      boardsCollectionPost db u ⟨some title, some []⟩ = .ok (db', item) →
        item.title = strTrim title) := by
  by_cases hb : strTrim title = ""
  · refine ⟨?_, fun _ => ?_, ?_⟩
    · simp [boardsCollectionPost, hb, Except.toOption]
    · simp [boardsCollectionPost, hb, boardCreateErrors, charFieldErrors,
        validate_members, missingMemberIds, sortAsc]
    · intro db' item h
      simp [boardsCollectionPost, hb] at h
  · refine ⟨?_, fun hc => absurd hc hb, ?_⟩
    · simp [boardsCollectionPost, hb, validate_members, missingMemberIds,
        sortAsc, Except.toOption]
    · intro db' item h
      have hvm : validate_members db ([] : List Nat) = .ok [] := rfl
      simp only [boardsCollectionPost, hvm] at h
      rw [if_neg (by simp [hb])] at h
      cases h
      rfl

/-- C4 witness: length-2, length-3, length-64 and blank titles at the
concrete store. -/
theorem C4_title_blank_check_only_witness :
    ((boardsCollectionPost dbK 1 ⟨some "Hi", some []⟩).toOption.isSome = true) ∧
    ((boardsCollectionPost dbK 1 ⟨some "Hii", some []⟩).toOption.isSome = true) ∧
    ((boardsCollectionPost dbK 1
      ⟨some (String.mk (List.replicate 64 'x')), some []⟩).toOption.isSome
        = true) ∧
    (boardsCollectionPost dbK 1 ⟨some "   ", some []⟩ =
      .error (.validation [("title", "This field may not be blank.")])) :=
  ⟨(C4_title_blank_check_only dbK 1 "Hi").1.mpr (by decide),
   (C4_title_blank_check_only dbK 1 "Hii").1.mpr (by decide),
   (C4_title_blank_check_only dbK 1 (String.mk (List.replicate 64 'x'))).1.mpr
     (by decide),
   (C4_title_blank_check_only dbK 1 "   ").2.1 (by decide)⟩

/-- C5 counterexample: the claim states that a task create whose
`assignee_id` resolves to an existing user outside the board member set
fails with a validation error keyed to that field.  On the code, the
failure is the generic 400 body `{"detail": "Assignee/Reviewer must be a
board member."}`, not a field-keyed error. -/
theorem C5_counterexample :
    tasksCollectionPost dbK 1
      ⟨some 1, some "T", none, some "to-do", some "low", some (some 5), none,
        none, none, none, none⟩ =
      .error (.badRequest "Assignee/Reviewer must be a board member.") ∧
    statusCode (.badRequest "Assignee/Reviewer must be a board member.") = 400 := by
  decide

/-- C5 (amended): when a task-create `assignee_id` resolves to an existing
user who is outside the board owner-or-member set, the request fails with
the generic 400 body `{"detail": "Assignee/Reviewer must be a board
member."}` — not a field-keyed validation error — and no task row is
persisted (the result is never a success carrying a new store). -/
theorem C5_nonmember_assignee_generic_400
    (db : DB) (u bid a : Nat) (ti : String) (desc : Option String)
    (st pr : String) (rev : Option (Option Nat)) (dd : Option (Option String))
    (col : Option String) (asg rvr : Option Nat)
    (board : Board) (ua : User)
    (hti : strTrim ti ≠ "") (hst : st ∈ validStatuses)
    (hpr : pr ∈ validPriorities)
    (hb : findBoard db bid = some board)
    (hmem : is_board_member_or_owner db board u = true)
    (hu : findUser db a = some ua)
    (hnm : is_board_member_or_owner db board a = false) :
    tasksCollectionPost db u
      ⟨some bid, some ti, desc, some st, some pr, some (some a), rev, dd,
        col, asg, rvr⟩ =
      .error (.badRequest "Assignee/Reviewer must be a board member.") ∧
    (∀ db' out, tasksCollectionPost db u
      ⟨some bid, some ti, desc, some st, some pr, some (some a), rev, dd,
        col, asg, rvr⟩ ≠ .ok (db', out)) := by
  have herrs : taskCreateErrors
      ⟨some bid, some ti, desc, some st, some pr, some (some a), rev, dd,
        col, asg, rvr⟩ = [] := by
    simp [taskCreateErrors, charFieldErrors, choiceFieldErrors, hti, hst, hpr,
      List.contains]
  have hmain : tasksCollectionPost db u
      ⟨some bid, some ti, desc, some st, some pr, some (some a), rev, dd,
        col, asg, rvr⟩ =
      .error (.badRequest "Assignee/Reviewer must be a board member.") := by
    simp only [tasksCollectionPost, herrs]
    rw [if_neg (by simp)]
    rw [hb]
    dsimp only
    rw [if_neg (by simp [hmem])]
    have hres : resolve_user db board (Option.join (some (some a))) =
        .error (.badRequest "Assignee/Reviewer must be a board member.") := by
      simp only [Option.join, resolve_user, Option.bind, id_eq]
      rw [hu]
      dsimp only
      rw [if_pos (by simp [findUser_id hu, hnm])]
    rw [hres]
  exact ⟨hmain, fun db' out hok => by rw [hmain] at hok; cases hok⟩

/-- C5 witness: Dave (5) exists but is not in the member set of board 1;
Alice creating a task with `assignee_id = 5` gets the generic 400 body. -/
theorem C5_nonmember_assignee_generic_400_witness :
    tasksCollectionPost dbK 1
      ⟨some 1, some "Tsk", none, some "to-do", some "low", some (some 5),
        none, none, none, none, none⟩ =
      .error (.badRequest "Assignee/Reviewer must be a board member.") :=
  (C5_nonmember_assignee_generic_400 dbK 1 1 5 "Tsk" none "to-do" "low"
    none none none none none ⟨1, "B1", 1⟩ ⟨5, "dave@mail.example", "Dave"⟩
    (by decide) (by decide) (by decide) (by decide) (by decide) (by decide)
    (by decide)).1

/-- C8: when a board create or board update members list contains ids that
do not resolve to users, validation fails with ONE combined error on the
`members` field whose message lists ALL missing ids (every non-resolving
listed id appears, and only those), sorted ascending — not just the first
missing id. -/
theorem C8_all_missing_ids_one_sorted_error
    (db : DB) (ids : List Nat) (i : Nat) (title : String)
    (hi : i ∈ ids) (hmiss : userExists db i = false)
    (htitle : strTrim title ≠ "") :
    validate_members db ids =
      .error (unknownIdsMessage (missingMemberIds db ids)) ∧
    (∀ j, j ∈ missingMemberIds db ids ↔ j ∈ ids ∧ userExists db j = false) ∧
    (missingMemberIds db ids).Sorted (· ≤ ·) ∧
    boardCreateErrors db ⟨some title, some ids⟩ =
      [("members", unknownIdsMessage (missingMemberIds db ids))] ∧
    boardUpdateErrors db ⟨none, some ids⟩ =
      [("members", unknownIdsMessage (missingMemberIds db ids))] := by
  have hne : ¬ (missingMemberIds db ids).isEmpty = true := by
    rw [List.isEmpty_iff]
    intro hnil
    have : i ∈ missingMemberIds db ids := missingMemberIds_mem.mpr ⟨hi, hmiss⟩
    rw [hnil] at this
    cases this
  have hvm : validate_members db ids =
      .error (unknownIdsMessage (missingMemberIds db ids)) := by
    simp only [validate_members]
    rw [if_neg hne]
  refine ⟨hvm, fun j => missingMemberIds_mem, ?_, ?_, ?_⟩
  · exact sortAsc_sorted _
  · simp [boardCreateErrors, charFieldErrors, htitle, hvm]
  · simp [boardUpdateErrors, hvm]

/-- C8 witness: member list `[9, 4, 9, 2]` against the concrete store —
ids 4 and 9 are unknown, id 2 resolves; the single combined error message
lists exactly `4, 9` in ascending order. -/
theorem C8_all_missing_ids_one_sorted_error_witness :
    validate_members dbK [9, 4, 9, 2] =
      .error (unknownIdsMessage (missingMemberIds dbK [9, 4, 9, 2])) ∧
    unknownIdsMessage (missingMemberIds dbK [9, 4, 9, 2]) =
      "Unknown user IDs: 4, 9" ∧
    (4 ∈ missingMemberIds dbK [9, 4, 9, 2] ∧
      9 ∈ missingMemberIds dbK [9, 4, 9, 2] ∧
      2 ∉ missingMemberIds dbK [9, 4, 9, 2]) ∧
    boardCreateErrors dbK ⟨some "Valid", some [9, 4, 9, 2]⟩ =
      [("members", unknownIdsMessage (missingMemberIds dbK [9, 4, 9, 2]))] := by
  have h := C8_all_missing_ids_one_sorted_error dbK [9, 4, 9, 2] 9 "Valid"
    (by decide) (by decide) (by decide)
  exact ⟨h.1, by decide, ⟨(h.2.1 4).mpr (by decide), (h.2.1 9).mpr (by decide),
    fun hc => absurd ((h.2.1 2).mp hc).2 (by decide)⟩, h.2.2.2.1⟩

/-- C9: comment deletion succeeds only when the requester both authored
the comment and can view the board of the parent task (both checks are
evaluated, the visibility check first); a board member who is not the
author gets Forbidden (403) and the comment row stays in the store; even
the author gets Forbidden when the board is not visible to them. -/
theorem C9_comment_delete_author_and_visibility
    (db : DB) (u taskId commentId : Nat) (t : Task) (board : Board)
    (c : Comment)
    (ht : findTask db taskId = some t)
    (hb : findBoard db t.boardId = some board)
    (hc : db.comments.find? (fun x => x.id == commentId && x.taskId == t.id)
      = some c) :
    (∀ db', commentDeleteView db u taskId commentId = .ok db' →
      c.authorId = u ∧ is_board_member_or_owner db board u = true) ∧
    (is_board_member_or_owner db board u = false →
      commentDeleteView db u taskId commentId = .error .forbidden) ∧
    (is_board_member_or_owner db board u = true → c.authorId ≠ u →
      commentDeleteView db u taskId commentId = .error .forbidden ∧
        statusCode .forbidden = 403 ∧ c ∈ db.comments) := by
  have hview : ∀ r, commentDeleteView db u taskId commentId = r →
      (if (!is_board_member_or_owner db board u) = true then
        Except.error ApiErr.forbidden
      else
        if (c.authorId != u) = true then Except.error ApiErr.forbidden
        else Except.ok { db with
          comments := db.comments.filter (fun x => x.id != c.id) }) = r := by
    intro r hr
    rw [← hr]
    simp only [commentDeleteView]
    rw [ht]
    dsimp only
    rw [hb]
    dsimp only
    rw [hc]
  have heq := hview _ rfl
  refine ⟨?_, ?_, ?_⟩
  · intro db' hok
    rw [← heq] at hok
    by_cases hm : is_board_member_or_owner db board u = true
    · rw [if_neg (by simp [hm])] at hok
      by_cases ha : c.authorId = u
      · exact ⟨ha, hm⟩
      · rw [if_pos (by simp [ha])] at hok
        cases hok
    · rw [if_pos (by simp [Bool.eq_false_iff.mpr hm])] at hok
      cases hok
  · intro hm
    rw [← heq, if_pos (by simp [hm])]
  · intro hm ha
    refine ⟨?_, rfl, List.mem_of_find?_eq_some hc⟩
    rw [← heq, if_neg (by simp [hm]), if_pos (by simp [ha])]

/-- C9 witness: on the concrete store, the board owner Alice (1) — a
non-author with board access — attempting to delete the comment written by
Bob (2) receives Forbidden. -/
theorem C9_comment_delete_author_and_visibility_witness :
    commentDeleteView dbK 1 1 1 = .error .forbidden := by
  have h := C9_comment_delete_author_and_visibility dbK 1 1 1
    ⟨1, 1, "T1", "", "to-do", "high", none, none, none⟩ ⟨1, "B1", 1⟩
    ⟨1, 1, 2, "hi"⟩ (by decide) (by decide) (by decide)
  exact (h.2.2 (by decide) (by decide)).1

/-- C10: task deletion is permitted exactly for the owner of the board of
the task: the creator-exception branch is dead because the `Task` model
declares no `created_by` field (`taskHasCreatedBy = false`), so any
requester who is not the board owner — including explicit board members —
receives Forbidden (403) and the task row stays in the store. -/
theorem C10_task_delete_owner_only
    (db : DB) (u taskId : Nat) (t : Task) (board : Board)
    (ht : findTask db taskId = some t)
    (hb : findBoard db t.boardId = some board) :
    taskHasCreatedBy = false ∧
    ((∃ db', taskDetailDelete db u taskId = .ok db') ↔ board.ownerId = u) ∧
    (board.ownerId ≠ u →
      taskDetailDelete db u taskId = .error .forbidden ∧
        statusCode .forbidden = 403 ∧ t ∈ db.tasks) := by
  have heq : taskDetailDelete db u taskId =
      (if (!(board.ownerId == u ||
            (taskHasCreatedBy && taskCreatedById t == some u))) = true then
        Except.error ApiErr.forbidden
      else Except.ok { db with
        tasks := db.tasks.filter (fun x => x.id != t.id)
        comments := db.comments.filter (fun x => x.taskId != t.id) }) := by
    simp only [taskDetailDelete]
    rw [ht]
    dsimp only
    rw [hb]
  refine ⟨rfl, ?_, ?_⟩
  · constructor
    · rintro ⟨db', hok⟩
      rw [heq] at hok
      by_cases ho : board.ownerId = u
      · exact ho
      · rw [if_pos (by simp [taskHasCreatedBy, ho])] at hok
        cases hok
    · intro ho
      exact ⟨{ db with
          tasks := db.tasks.filter (fun x => x.id != t.id)
          comments := db.comments.filter (fun x => x.taskId != t.id) },
        by rw [heq, if_neg (by simp [ho])]⟩
  · intro ho
    refine ⟨?_, rfl, findTask_mem ht⟩
    rw [heq, if_pos (by simp [taskHasCreatedBy, ho])]

/-- C10 witness: Bob (2) is an explicit member of board 1 but not its
owner; his delete of task 1 is Forbidden, while owner Alice (1) may
delete. -/
theorem C10_task_delete_owner_only_witness :
    taskDetailDelete dbK 2 1 = .error .forbidden ∧
    (∃ db', taskDetailDelete dbK 1 1 = .ok db') := by
  have h2 := C10_task_delete_owner_only dbK 2 1
    ⟨1, 1, "T1", "", "to-do", "high", none, none, none⟩ ⟨1, "B1", 1⟩
    (by decide) (by decide)
  have h1 := C10_task_delete_owner_only dbK 1 1
    ⟨1, 1, "T1", "", "to-do", "high", none, none, none⟩ ⟨1, "B1", 1⟩
    (by decide) (by decide)
  exact ⟨(h2.2.2 (by decide)).1, h1.2.1.mpr (by decide)⟩

/-- C6: (modelled from the spec — the dashboard view and its route are
absent from the source tree, spec §4.2/§6/§8) `tickets_total` equals the
number of distinct tasks across all boards the user owns or is a member
of: the de-duplicating board-id union counts exactly the task-id set of
the owns-or-member predicate, with no task counted twice, and the
`by_priority` / `by_status` maps partition the same task set, each summing
to `tickets_total`. -/
theorem C6_dashboard_dedup_union (db : DB) (u : Nat) (hwf : db.WF) :
    (dashboardSummary db u).tickets_total = (specDashboardTaskIds db u).card ∧
    (dashboardSummary db u).prio_low + (dashboardSummary db u).prio_medium +
      (dashboardSummary db u).prio_high =
      (dashboardSummary db u).tickets_total ∧
    (dashboardSummary db u).status_todo +
      (dashboardSummary db u).status_in_progress +
      (dashboardSummary db u).status_review +
      (dashboardSummary db u).status_done =
      (dashboardSummary db u).tickets_total := by
  obtain ⟨-, -, htasks, -, -, hmB, -, -, -, -, hchoice⟩ := hwf
  have hfe := @dashboardTasks_filter_eq db u hmB
  have hvalid : ∀ t ∈ dashboardTasks db u,
      t.status ∈ validStatuses ∧ t.priority ∈ validPriorities :=
    fun t ht => hchoice t (List.mem_of_mem_filter ht)
  refine ⟨?_, ?_, ?_⟩
  · show (dashboardTasks db u).length = _
    have hnd : ((db.tasks.filter (fun t =>
        db.boards.any (fun b => b.id == t.boardId &&
          (b.ownerId == u || isMemberRow db b.id u)))).map (·.id)).Nodup := by
      refine List.Nodup.sublist ?_ htasks
      exact List.Sublist.map _ (List.filter_sublist _)
    rw [hfe]
    unfold specDashboardTaskIds
    rw [List.toFinset_card_of_nodup hnd, List.length_map]
  · exact priority_partition (fun t ht => (hvalid t ht).2)
  · exact status_partition (fun t ht => (hvalid t ht).1)

/-- C6 witness: the dashboard of Bob (2) on the concrete store. -/
theorem C6_dashboard_dedup_union_witness :
    dbK.WF ∧
    ((dashboardSummary dbK 2).tickets_total =
        (specDashboardTaskIds dbK 2).card ∧
      (dashboardSummary dbK 2).prio_low + (dashboardSummary dbK 2).prio_medium +
        (dashboardSummary dbK 2).prio_high =
        (dashboardSummary dbK 2).tickets_total ∧
      (dashboardSummary dbK 2).status_todo +
        (dashboardSummary dbK 2).status_in_progress +
        (dashboardSummary dbK 2).status_review +
        (dashboardSummary dbK 2).status_done =
        (dashboardSummary dbK 2).tickets_total) :=
  ⟨by decide, C6_dashboard_dedup_union dbK 2 (by decide)⟩

end KanMind
